import Mathlib

/-!
Verification of `wmse_downloader.go` (package `main` of pdfinn/wmse_downloader).

Shallow embedding conventions:
* Go strings are modelled as `List Char` (`Str`).  The only place where Go's
  byte-length of a string differs from its rune count is `validateShowID`'s
  length test; since every accepted string is ASCII (enforced by the regex
  branch) the acceptance set is unaffected, only which of the two
  `ErrInvalidShowID` messages fires — both are the same wrapped error.
* File contents are `List Nat` (byte sequences).  The filesystem is an
  association list from paths to contents; directories are not modelled
  (`os.MkdirAll` is assumed to succeed, as are `Create`/`Sync`/`Close`/`Rename`
  — none of the claims concern their failure modes).
* Network effects are inputs: each HTTP interaction's observable outcome
  (transport failure / status / body bytes / decoded value) is a parameter of
  the function modelling the Go function that performs it.
-/

namespace WMSE

/-- Go strings, modelled as lists of characters. -/
abbrev Str := List Char

/-- Byte sequences (file / response bodies). -/
abbrev Bytes := List Nat

/-! ### Constants (wmse_downloader.go lines 28-36) -/

/-- `maxShowIDLength = 50`. -/
def maxShowIDLength : Nat := 50

/-- `maxResponseSize = 10 * 1024 * 1024`. -/
def maxResponseSize : Nat := 10 * 1024 * 1024

/-- `maxFileSize = 500 * 1024 * 1024`. -/
def maxFileSize : Nat := 500 * 1024 * 1024

/-- `maxArchiveLinks = 1000`. -/
def maxArchiveLinks : Nat := 1000

/-- Error outcomes of the Go functions.  Each constructor corresponds to one
`return ..., err` site (several sites wrap the same sentinel, e.g. both
branches of `validateShowID` wrap `ErrInvalidShowID`). -/
inductive DlErr where
  | invalidShowID      -- validateShowID, both branches (wraps ErrInvalidShowID)
  | pageReqFailed      -- getShowArchiveID: http.NewRequestWithContext failed
  | pageFetchFailed    -- getShowArchiveID: client.Do failed
  | pageBadStatus      -- getShowArchiveID: non-200 status
  | parseHTMLFailed    -- getShowArchiveID: html.Parse failed
  | archiveIDNotFound  -- getShowArchiveID: empty archiveID after traversal
  | apiReqFailed       -- fetchArchives: request creation failed
  | apiFetchFailed     -- fetchArchives: client.Do failed
  | apiBadStatus       -- fetchArchives: non-200 status
  | parseJSONFailed    -- fetchArchives: JSON decode failed
  | noURL              -- downloadShow: empty ArchiveURL (line 203)
  | dlReqFailed        -- downloadShow: http.NewRequest failed (line 254)
  | dlGetFailed        -- downloadShow: client.Do failed (line 265)
  | dlBadStatus        -- downloadShow: non-200 status (line 271)
  | dlCopyFailed       -- downloadShow: io.Copy error (line 293)
  | fileTooLarge       -- downloadShow: ErrFileTooLarge (line 297)
deriving DecidableEq

/-! ### validateShowID (lines 63-74) -/

/-- One character of the class of `validShowIDRegex = ^[a-zA-Z0-9_-]+$`. -/
def validChar (c : Char) : Bool :=
  (decide ('a' ≤ c) && decide (c ≤ 'z')) ||
  (decide ('A' ≤ c) && decide (c ≤ 'Z')) ||
  (decide ('0' ≤ c) && decide (c ≤ '9')) ||
  (c == '_') || (c == '-')

/-- `validateShowID` (lines 63-74): rejects empty / over-long ids, then ids
with a character outside the regex class.  Matching `^[a-zA-Z0-9_-]+$` on a
non-empty string is exactly "every character is in the class" (Go's RE2 `$`
anchors at end of text). -/
def validateShowID (id : Str) : Except DlErr Unit :=
  if id = [] ∨ id.length > maxShowIDLength then
    .error .invalidShowID
  else if id.all validChar then
    .ok ()
  else
    .error .invalidShowID

/-- The show-key shape invariant as the spec states it: `^[A-Za-z0-9_-]{1,50}$`. -/
def specShowKey (id : Str) : Prop :=
  1 ≤ id.length ∧ id.length ≤ 50 ∧
    ∀ c ∈ id, ('A' ≤ c ∧ c ≤ 'Z') ∨ ('a' ≤ c ∧ c ≤ 'z') ∨
      ('0' ≤ c ∧ c ≤ '9') ∨ c = '_' ∨ c = '-'

instance (id : Str) : Decidable (specShowKey id) := by
  unfold specShowKey; infer_instance

/-! ### sanitizeFilename (lines 77-91) -/

/-- ASCII lower-casing of one character; `strings.ToLower` agrees with this on
the ASCII-only strings it is applied to here (the input has already been
passed through the `[^a-zA-Z0-9.-] -> _` replacement). -/
def toLowerChar (c : Char) : Char :=
  if 'A' ≤ c ∧ c ≤ 'Z' then Char.ofNat (c.toNat + 32) else c

/-- Characters kept by the replacement regex `[^a-zA-Z0-9.-]` (line 82):
a character NOT in this set is replaced by `'_'`. -/
def keepChar (c : Char) : Bool :=
  (decide ('a' ≤ c) && decide (c ≤ 'z')) ||
  (decide ('A' ≤ c) && decide (c ≤ 'Z')) ||
  (decide ('0' ≤ c) && decide (c ≤ '9')) ||
  (c == '.') || (c == '-')

/-- `reg.ReplaceAllString(filename, "_")` acting on one character. -/
def replChar (c : Char) : Char :=
  if keepChar c then c else '_'

/-- Strip trailing path separators (first step of Go's `filepath.Base`; the
path separator on the target platform is `'/'`). -/
def stripTrailing (p : Str) : Str :=
  (p.reverse.dropWhile (fun c => c == '/')).reverse

/-- Everything after the last `'/'` (the `strings.LastIndex` step of
`filepath.Base`); the whole string when it contains no `'/'`. -/
def lastComponent (q : Str) : Str :=
  (q.reverse.takeWhile (fun c => c != '/')).reverse

/-- Go's `filepath.Base` (Unix): `""` gives `"."`; a string of only
separators gives `"/"`; otherwise the last path element with trailing
separators removed. -/
def filepathBase (p : Str) : Str :=
  if p = [] then ['.']
  else
    if stripTrailing p = [] then ['/']
    else lastComponent (stripTrailing p)

/-- The literal `".mp3"`. -/
def mp3Suffix : Str := ['.', 'm', 'p', '3']

/-- `strings.HasSuffix s suf`: byte-for-byte trailing match. -/
def goHasSuffix (s suf : Str) : Bool :=
  decide (suf.length ≤ s.length) && decide (s.drop (s.length - suf.length) = suf)

/-- `sanitizeFilename` (lines 77-91): `filepath.Base`, then replace every
character outside `[a-zA-Z0-9.-]` with `'_'`, then append `".mp3"` unless the
lower-cased result already ends with it. -/
def sanitizeFilename (filename : Str) : Str :=
  if goHasSuffix (((filepathBase filename).map replChar).map toLowerChar) mp3Suffix
  then (filepathBase filename).map replChar
  else (filepathBase filename).map replChar ++ mp3Suffix

/-! ### HTML documents and the traversal of getShowArchiveID (lines 133-148)

`golang.org/x/net/html` represents a parsed document as nodes with
`FirstChild` / `NextSibling` pointers; `HNode` mirrors that shape directly:
a value is either the end of a sibling chain, an element node (with tag,
attributes, first child and next sibling), or any non-element node type
(document, text, comment, doctype — the traversal treats them all alike,
only recursing into children). -/

inductive HNode where
  /-- End of a sibling chain (nil `FirstChild` / `NextSibling` pointer). -/
  | nilN : HNode
  /-- An `html.ElementNode` with its tag (`Data`), attributes (`Attr`),
  first child and next sibling. -/
  | element (tag : Str) (attrs : List (Str × Str)) (child : HNode) (sib : HNode) : HNode
  /-- Any non-element node (document/text/comment/doctype). -/
  | other (child : HNode) (sib : HNode) : HNode
deriving DecidableEq

/-- The literal `"wmse-archive"`. -/
def wmseTag : Str := ['w','m','s','e','-','a','r','c','h','i','v','e']

/-- The literal `"show-id"`. -/
def showIdKey : Str := ['s','h','o','w','-','i','d']

/-- The inner attribute loop (lines 137-142): the value of the first
attribute whose key is `"show-id"`, if any. -/
def findShowId : List (Str × Str) → Option Str
  | [] => none
  | (k, v) :: rest => if k = showIdKey then some v else findShowId rest

/-- The recursive closure `f` (lines 135-147), with the enclosing mutable
`archiveID` made an explicit accumulator.  `fVisit acc n` runs `f` on the
node `n` and then on all of `n`'s following siblings (Go's caller iterates
`FirstChild`/`NextSibling`, which this sibling-chained representation folds
into the same recursion).  On a `wmse-archive` element carrying a `show-id`
attribute, `f` assigns `archiveID` and `return`s — skipping that element's
subtree but NOT the rest of the traversal: the parent's sibling loop
continues, so a later match overwrites the accumulator. -/
def fVisit (acc : Str) : HNode → Str
  | .nilN => acc
  | .element tag attrs child sib =>
      fVisit
        (if tag = wmseTag then
          match findShowId attrs with
          | some v => v
          | none => fVisit acc child
        else fVisit acc child)
        sib
  | .other child sib => fVisit (fVisit acc child) sib

/-- All `show-id` values the traversal assigns, in assignment order: one per
`wmse-archive` element carrying a `show-id` attribute, in depth-first order,
where a match suppresses its own subtree (the `return`) but not later
siblings.  Helper used to state what `fVisit` computes. -/
def collectIds : HNode → List Str
  | .nilN => []
  | .element tag attrs child sib =>
      (if tag = wmseTag then
        match findShowId attrs with
        | some v => [v]
        | none => collectIds child
      else collectIds child) ++ collectIds sib
  | .other child sib => collectIds child ++ collectIds sib

/-- Modelled from the spec (§4.1): "depth-first search …; reads a specific
attribute off the first match found.  Search order: document order, first
match wins, does not continue searching siblings/subtrees after a match is
found".  Used only to compare the spec's claimed behaviour with `fVisit`. -/
def specFirstMatch : HNode → Option Str
  | .nilN => none
  | .element tag attrs child sib =>
      match (if tag = wmseTag then
              match findShowId attrs with
              | some v => some v
              | none => specFirstMatch child
             else specFirstMatch child) with
      | some v => some v
      | none => specFirstMatch sib
  | .other child sib =>
      match specFirstMatch child with
      | some v => some v
      | none => specFirstMatch sib

/-- Observable outcome of the single program-page request of
`getShowArchiveID`: either `client.Do` fails, or a response arrives with a
status and (when `html.Parse` succeeds) a parsed document. -/
inductive PageFetch where
  | failed : PageFetch
  | got (status : Nat) (doc? : Option HNode) : PageFetch
deriving DecidableEq

/-- `getShowArchiveID` (lines 94-156), with the page request's outcome as a
parameter.  Returns the Go result together with the number of network
requests performed (0 or 1).  Request construction (line 104) cannot fail
for these well-formed constant URL templates, so it is not a parameter. -/
def getShowArchiveID (showID : Str) (pf : PageFetch) : Except DlErr Str × Nat :=
  match validateShowID showID with
  | .error e => (.error e, 0)
  | .ok _ =>
    match pf with
    | .failed => (.error .pageFetchFailed, 1)
    | .got status doc? =>
      if status ≠ 200 then (.error .pageBadStatus, 1)
      else
        match doc? with
        | none => (.error .parseHTMLFailed, 1)
        | some doc =>
          let archiveID := fVisit [] doc
          if archiveID = [] then (.error .archiveIDNotFound, 1)
          else (.ok archiveID, 1)

/-! ### Archive values and fetchArchives (lines 159-196) -/

/-- `Archive` (lines 55-60). -/
structure Archive where
  ShowID : Str
  ArchiveURL : Str
  PlaylistID : Option Str
  PlaylistDate : Str
deriving DecidableEq

/-- Observable outcome of the API request of `fetchArchives`: transport
failure, or a response with status, body size in bytes, and (when the body
decodes as a JSON array of `Archive`) the decoded list. -/
inductive ApiFetch where
  | failed : ApiFetch
  | got (status : Nat) (bodyBytes : Nat) (decoded? : Option (List Archive)) : ApiFetch

/-- `fetchArchives` (lines 159-196).  Note: the body is decoded directly from
`resp.Body` (line 187) — the function never consults `maxResponseSize` or
`maxArchiveLinks`, and never returns `ErrResponseTooLarge` / `ErrTooManyLinks`
(those constants and sentinels are declared at lines 30/32/40/43 but unused),
which is why `bodyBytes` and the decoded length are returned unchecked. -/
def fetchArchives (archiveID : Str) (af : ApiFetch) : Except DlErr (List Archive) :=
  match archiveID, af with
  | _, .failed => .error .apiFetchFailed
  | _, .got status _ decoded? =>
    if status ≠ 200 then .error .apiBadStatus
    else
      match decoded? with
      | none => .error .parseJSONFailed
      | some archives => .ok archives

/-! ### Filesystem model -/

/-- A flat filesystem: association list from paths to byte contents. -/
abbrev FS := List (Str × Bytes)

/-- Content at a path (`os.Stat` succeeds iff this is `some _`). -/
def fsGet : FS → Str → Option Bytes
  | [], _ => none
  | (q, c) :: rest, p => if q = p then some c else fsGet rest p

/-- Remove a path. -/
def fsErase (fs : FS) (p : Str) : FS :=
  fs.filter (fun e => decide (¬ e.1 = p))

/-- Create/overwrite a path with the given contents. -/
def fsSet (fs : FS) (p : Str) (c : Bytes) : FS :=
  (p, c) :: fsErase fs p

/-- `os.Rename src dst` (assuming `src` exists, which it does at its single
call site — the temp file was created earlier on the same path). -/
def fsRename (fs : FS) (src dst : Str) : FS :=
  match fsGet fs src with
  | some c => fsSet (fsErase fs src) dst c
  | none => fs

/-- `filepath.Join dir name` (the claims never exercise `Clean`'s
`.`/`..`/duplicate-separator rewriting, so joining is plain
`dir ++ "/" ++ name`, with Go's special case `Join("", name) = name`). -/
def filepathJoin (dir name : Str) : Str :=
  if dir = [] then name else dir ++ '/' :: name

/-! ### downloadShow (lines 199-330) -/

/-- A sleep performed by `downloadShow`, in seconds: either the retry
backoff (`time.Sleep(time.Second * time.Duration(attempt*2))`, line 248) or
the inter-download delay (`time.Sleep(delay)`, line 328). -/
inductive SleepEv where
  | backoff (secs : Nat)
  | inter (secs : Nat)
deriving DecidableEq

/-- Observable outcome of one download attempt's HTTP interaction:
`http.NewRequest` failure (line 252), `client.Do` failure (line 263), a
non-200 status (line 269), or a 200 response whose body yields `bytes` and
then either EOF (`midErr = false`) or a read error (`midErr = true`). -/
inductive AttemptOutcome where
  | reqError
  | connError
  | badStatus
  | body (bytes : Bytes) (midErr : Bool)
deriving DecidableEq

/-- Result of one attempt: the error recorded in `lastErr` (or `none` on
success), the temp-file contents after the attempt, and how many network
requests were issued (0 when request construction failed, else 1). -/
structure AttemptResult where
  err : Option DlErr
  tmp : Bytes
  req : Nat
deriving DecidableEq

/-- One iteration of the retry loop body (lines 252-299), minus the backoff
sleep.  `tmp` is the temp file's current content: the file handle `outFile`
is opened once before the loop and never truncated or rewound between
attempts, so `io.Copy(outFile, …)` at line 290 APPENDS this attempt's bytes
after whatever previous attempts already wrote.

For a 200 response delivering `bytes` then `midErr`:
`io.Copy` through `io.LimitReader(…, maxFileSize+1)` writes
`min bytes.length (maxFileSize+1)` bytes.  A mid-stream read error surfaces
only if the limit is not exhausted first (`bytes.length ≤ maxFileSize`;
once the limit is hit the `LimitReader` returns EOF without touching the
underlying reader again); otherwise `written > maxFileSize` triggers
`ErrFileTooLarge` (lines 296-298). -/
def attemptStep (o : AttemptOutcome) (tmp : Bytes) : AttemptResult :=
  match o with
  | .reqError => ⟨some .dlReqFailed, tmp, 0⟩
  | .connError => ⟨some .dlGetFailed, tmp, 1⟩
  | .badStatus => ⟨some .dlBadStatus, tmp, 1⟩
  | .body bytes midErr =>
      let written := min bytes.length (maxFileSize + 1)
      let tmp2 := tmp ++ bytes.take written
      if midErr && decide (bytes.length ≤ maxFileSize) then
        ⟨some .dlCopyFailed, tmp2, 1⟩
      else if decide (written > maxFileSize) then
        ⟨some .fileTooLarge, tmp2, 1⟩
      else
        ⟨none, tmp2, 1⟩

/-- Result of the whole retry loop: final `lastErr`, temp contents, sleeps
performed, requests issued. -/
structure RetryResult where
  lastErr : Option DlErr
  tmp : Bytes
  sleeps : List SleepEv
  requests : Nat
deriving DecidableEq

/-- The retry loop (lines 240-304) over an explicit list of numbered
attempts (called with `[(1,o1),(2,o2),(3,o3)]` since `maxRetries = 3`).
Before every attempt except the first, sleep `attempt * 2` seconds
(line 248).  On success set `lastErr = nil` and break; on failure record
the error and continue. -/
def retryGo : List (Nat × AttemptOutcome) → Bytes → Option DlErr →
    List SleepEv → Nat → RetryResult
  | [], tmp, lastErr, sleeps, reqs => ⟨lastErr, tmp, sleeps, reqs⟩
  | (attempt, o) :: rest, tmp, _, sleeps, reqs =>
      let sleeps1 := if 1 < attempt then sleeps ++ [SleepEv.backoff (attempt * 2)] else sleeps
      let ar := attemptStep o tmp
      match ar.err with
      | none => ⟨none, ar.tmp, sleeps1, reqs + ar.req⟩
      | some e => retryGo rest ar.tmp (some e) sleeps1 (reqs + ar.req)

/-- The literal `".tmp"`. -/
def tmpExt : Str := ['.', 't', 'm', 'p']

instance {ε α : Type} [DecidableEq ε] [DecidableEq α] : DecidableEq (Except ε α) := fun a b =>
  match a, b with
  | .error e, .error f =>
      if h : e = f then .isTrue (by rw [h]) else .isFalse (fun hh => by cases hh; exact h rfl)
  | .error _, .ok _ => .isFalse (fun hh => by cases hh)
  | .ok _, .error _ => .isFalse (fun hh => by cases hh)
  | .ok x, .ok y =>
      if h : x = y then .isTrue (by rw [h]) else .isFalse (fun hh => by cases hh; exact h rfl)

/-- The observable outcome of one `downloadShow` call: its return value, the
filesystem afterwards, the sleeps it performed, the number of network
requests it issued, and whether the temp file was promoted (renamed) to the
final path. -/
structure DLResult where
  result : Except DlErr Unit
  fs : FS
  sleeps : List SleepEv
  requests : Nat
  promoted : Bool
deriving DecidableEq

/-- The filename `downloadShow` derives for an entry (lines 207-208):
`fmt.Sprintf("%s_%s.mp3", PlaylistDate, ShowID)` passed through
`sanitizeFilename`. -/
def showFilename (archive : Archive) : Str :=
  sanitizeFilename (archive.PlaylistDate ++ '_' :: archive.ShowID ++ mp3Suffix)

/-- The destination path (line 209): `filepath.Join(outputDir, filename)`. -/
def showOutputPath (archive : Archive) (outputDir : Str) : Str :=
  filepathJoin outputDir (showFilename archive)

/-- `downloadShow` (lines 199-330), with the three attempts' HTTP outcomes
and the starting filesystem as parameters; `delay` in seconds.

Modelling notes, all per the source:
* the filename is `fmt.Sprintf("%s_%s.mp3", PlaylistDate, ShowID)` passed
  through `sanitizeFilename` (lines 207-208);
* the existing-file check (line 212) precedes all network access but comes
  AFTER the empty-URL check (line 202);
* `os.MkdirAll` / `os.Create` / `Sync` / `Close` / `os.Rename` are assumed
  to succeed (their failure modes are outside every claim);
* the deferred cleanup (lines 232-237) tests `err`, which is the variable
  bound by `outFile, err := os.Create(...)` at line 228: every assignment
  inside the retry loop (lines 252, 263, 290) and in the later `if err :=`
  statements (lines 311, 316, 321) binds a NEW shadowed `err`, so the
  deferred `os.Remove(tempFile)` never fires once `os.Create` has
  succeeded — in particular the temp file survives the
  all-retries-failed return at line 307. -/
def downloadShow (archive : Archive) (outputDir : Str) (delay : Nat)
    (o1 o2 o3 : AttemptOutcome) (fs : FS) : DLResult :=
  if archive.ArchiveURL = [] then
    ⟨.error .noURL, fs, [], 0, false⟩
  else
    let outputPath := showOutputPath archive outputDir
    if (fsGet fs outputPath).isSome then
      ⟨.ok (), fs, [], 0, false⟩
    else
      let tempFile := outputPath ++ tmpExt
      let fs1 := fsSet fs tempFile []
      let rr := retryGo [(1, o1), (2, o2), (3, o3)] [] none [] 0
      match rr.lastErr with
      | some e =>
          -- line 307: return lastErr; the shadowed-err defer leaves tempFile behind
          ⟨.error e, fsSet fs1 tempFile rr.tmp, rr.sleeps, rr.requests, false⟩
      | none =>
          -- lines 311-328: sync, close, rename temp -> final, sleep delay
          ⟨.ok (), fsRename (fsSet fs1 tempFile rr.tmp) tempFile outputPath,
            rr.sleeps ++ [SleepEv.inter delay], rr.requests, true⟩

/-! ### main (lines 351-399) -/

/-- The per-entry loop of `main` (lines 392-398): call `downloadShow` on
every entry in order, threading the filesystem; a failed entry is logged and
the loop continues.  `att i` supplies the i-th entry's three attempt
outcomes.  Returns every entry's result and the final filesystem. -/
def runLoop (outputDir : Str) (delay : Nat)
    (att : Nat → AttemptOutcome × AttemptOutcome × AttemptOutcome) :
    List Archive → Nat → FS → List (Except DlErr Unit) × FS
  | [], _, fs => ([], fs)
  | a :: rest, i, fs =>
      let r := downloadShow a outputDir delay (att i).1 (att i).2.1 (att i).2.2 fs
      ((downloadShow a outputDir delay (att i).1 (att i).2.1 (att i).2.2 fs).result
          :: (runLoop outputDir delay att rest (i + 1) r.fs).1,
        (runLoop outputDir delay att rest (i + 1) r.fs).2)

/-- `main` (lines 351-399) from flag parsing onwards: resolve the show id
(exit 1 on failure, line 376), fetch the archive list (exit 1 on failure,
line 383), exit 1 on an empty list (line 388), else run the download loop —
whose per-entry errors are only logged — and fall off `main`, i.e. exit 0.
Returns the exit code and the final filesystem. -/
def runMain (showID outputDir : Str) (delay : Nat) (pf : PageFetch)
    (af : Str → ApiFetch)
    (att : Nat → AttemptOutcome × AttemptOutcome × AttemptOutcome)
    (fs : FS) : Nat × FS :=
  match (getShowArchiveID showID pf).1 with
  | .error _ => (1, fs)
  | .ok archiveID =>
    match fetchArchives archiveID (af archiveID) with
    | .error _ => (1, fs)
    | .ok archives =>
      if archives.length = 0 then (1, fs)
      else
        let (_, fsEnd) := runLoop outputDir delay att archives 0 fs
        (0, fsEnd)

/-! ## Helper lemmas about sanitizeFilename -/

theorem dropWhile_slash_eq_self (l : List Char) (h : ∀ c ∈ l, c ≠ '/') :
    l.dropWhile (fun c => c == '/') = l := by
  cases l with
  | nil => rfl
  | cons a t =>
      have ha : ¬ ((fun c => c == '/') a = true) := by
        simpa using h a (by simp)
      rw [@List.dropWhile_cons_of_neg _ (fun c => c == '/') a t ha]

theorem takeWhile_ne_slash_eq_self (l : List Char) (h : ∀ c ∈ l, c ≠ '/') :
    l.takeWhile (fun c => c != '/') = l := by
  induction l with
  | nil => rfl
  | cons a t ih =>
      have ha : ((fun c => c != '/') a = true) := by
        simpa using h a (by simp)
      rw [@List.takeWhile_cons_of_pos _ (fun c => c != '/') a t ha,
        ih (fun c hc => h c (by simp [hc]))]

/-- `filepath.Base` is the identity on non-empty separator-free strings. -/
theorem filepathBase_eq_self (p : Str) (hne : p ≠ []) (h : ∀ c ∈ p, c ≠ '/') :
    filepathBase p = p := by
  have hrev : ∀ c ∈ p.reverse, c ≠ '/' := fun c hc => h c (List.mem_reverse.mp hc)
  have hstrip : stripTrailing p = p := by
    unfold stripTrailing
    rw [dropWhile_slash_eq_self _ hrev, List.reverse_reverse]
  unfold filepathBase
  rw [if_neg hne, hstrip, if_neg hne]
  unfold lastComponent
  rw [takeWhile_ne_slash_eq_self _ hrev, List.reverse_reverse]

/-- The character replacement is the identity on strings already consisting
of kept characters and underscores. -/
theorem map_replChar_id (l : Str) (h : ∀ c ∈ l, keepChar c = true ∨ c = '_') :
    l.map replChar = l := by
  induction l with
  | nil => rfl
  | cons a t ih =>
      have ha : replChar a = a := by
        rcases h a (by simp) with hk | he
        · simp [replChar, hk]
        · subst he; rfl
      simp only [List.map_cons, ha, ih (fun c hc => h c (by simp [hc]))]

/-- Every character of a `sanitizeFilename` output is kept or an underscore. -/
theorem sanitize_mem_class (x : Str) :
    ∀ c ∈ sanitizeFilename x, keepChar c = true ∨ c = '_' := by
  have hmp3 : ∀ c ∈ mp3Suffix, keepChar c = true := by decide
  have hmap : ∀ c ∈ (filepathBase x).map replChar, keepChar c = true ∨ c = '_' := by
    intro c hc
    obtain ⟨d, _, rfl⟩ := List.mem_map.mp hc
    by_cases hk : keepChar d = true
    · left; simp [replChar, hk]
    · right; simp [replChar, hk]
  intro c hc
  unfold sanitizeFilename at hc
  by_cases hcond :
      goHasSuffix (((filepathBase x).map replChar).map toLowerChar) mp3Suffix = true
  · rw [if_pos hcond] at hc
    exact hmap c hc
  · rw [if_neg hcond] at hc
    rcases List.mem_append.mp hc with h1 | h2
    · exact hmap c h1
    · exact .inl (hmp3 c h2)

theorem goHasSuffix_append (l m : Str) : goHasSuffix (l ++ m) m = true := by
  unfold goHasSuffix
  have h1 : m.length ≤ (l ++ m).length := by
    rw [List.length_append]; omega
  have h2 : (l ++ m).length - m.length = l.length := by
    rw [List.length_append]; omega
  simp [h1, h2, List.drop_left]

/-- The lower-cased output of `sanitizeFilename` always ends in `".mp3"`. -/
theorem sanitize_hasSuffix (x : Str) :
    goHasSuffix ((sanitizeFilename x).map toLowerChar) mp3Suffix = true := by
  unfold sanitizeFilename
  by_cases hcond :
      goHasSuffix (((filepathBase x).map replChar).map toLowerChar) mp3Suffix = true
  · rw [if_pos hcond]; exact hcond
  · rw [if_neg hcond, List.map_append]
    have hlow : mp3Suffix.map toLowerChar = mp3Suffix := by decide
    rw [hlow]
    exact goHasSuffix_append _ _

theorem sanitize_ne_nil (x : Str) : sanitizeFilename x ≠ [] := by
  have h := sanitize_hasSuffix x
  unfold goHasSuffix at h
  rw [Bool.and_eq_true, decide_eq_true_iff, decide_eq_true_iff] at h
  intro hnil
  rw [hnil] at h
  simp [mp3Suffix] at h

/-- Any string that could have been produced by `sanitizeFilename` is a fixed
point of it. -/
theorem sanitize_fixed (r : Str) (hne : r ≠ [])
    (hclass : ∀ c ∈ r, keepChar c = true ∨ c = '_')
    (hsuf : goHasSuffix (r.map toLowerChar) mp3Suffix = true) :
    sanitizeFilename r = r := by
  have hslash : ∀ c ∈ r, c ≠ '/' := by
    intro c hc he
    rcases hclass c hc with hk | hu
    · rw [he] at hk; exact absurd hk (by decide)
    · rw [he] at hu; exact absurd hu (by decide)
  unfold sanitizeFilename
  rw [filepathBase_eq_self r hne hslash, map_replChar_id r hclass, if_pos hsuf]

/-! ## C9 and C10 -/

/-- C9: filename sanitization is idempotent — for every input string `x`,
`sanitizeFilename (sanitizeFilename x) = sanitizeFilename x`. -/
theorem sanitizeFilename_idempotent (x : Str) :
    sanitizeFilename (sanitizeFilename x) = sanitizeFilename x :=
  sanitize_fixed (sanitizeFilename x) (sanitize_ne_nil x)
    (sanitize_mem_class x) (sanitize_hasSuffix x)

/-- C10: for every input string, `sanitizeFilename`'s output is non-empty,
every character of it lies in `[A-Za-z0-9._-]` (in particular it contains no
`'/'`, hence no directory component), and its lower-casing ends with the
suffix `".mp3"` (i.e. it ends with `".mp3"` case-insensitively). -/
theorem sanitizeFilename_output_safe (x : Str) :
    sanitizeFilename x ≠ [] ∧
    (∀ c ∈ sanitizeFilename x,
      ('A' ≤ c ∧ c ≤ 'Z') ∨ ('a' ≤ c ∧ c ≤ 'z') ∨ ('0' ≤ c ∧ c ≤ '9') ∨
        c = '.' ∨ c = '_' ∨ c = '-') ∧
    '/' ∉ sanitizeFilename x ∧
    goHasSuffix ((sanitizeFilename x).map toLowerChar) mp3Suffix = true := by
  refine ⟨sanitize_ne_nil x, ?_, ?_, sanitize_hasSuffix x⟩
  · intro c hc
    rcases sanitize_mem_class x c hc with hk | hu
    · unfold keepChar at hk
      simp only [Bool.or_eq_true, Bool.and_eq_true, decide_eq_true_iff,
        beq_iff_eq] at hk
      tauto
    · tauto
  · intro hmem
    rcases sanitize_mem_class x _ hmem with hk | hu
    · exact absurd hk (by decide)
    · exact absurd hu (by decide)

/-! ## C7: show-key validation -/

/-- `validateShowID` never fails with anything but `invalidShowID`. -/
theorem validateShowID_error_shape (id : Str) (h : validateShowID id ≠ .ok ()) :
    validateShowID id = .error .invalidShowID := by
  unfold validateShowID at h ⊢
  by_cases h1 : id = [] ∨ id.length > maxShowIDLength
  · rw [if_pos h1]
  · rw [if_neg h1] at h ⊢
    by_cases h2 : id.all validChar = true
    · rw [if_pos h2] at h; exact absurd rfl h
    · rw [if_neg h2]

/-- C7: show-key validation accepts exactly the strings matching
`^[A-Za-z0-9_-]{1,50}$` (non-empty, at most 50 characters, every character
alphanumeric, underscore or hyphen) and rejects every other string with the
`invalidShowID` error; on rejection `getShowArchiveID` returns that error
having performed zero network requests. -/
theorem validateShowID_spec_exact (id : Str) (pf : PageFetch) :
    (validateShowID id = .ok () ↔ specShowKey id) ∧
    (validateShowID id ≠ .ok () →
      getShowArchiveID id pf = (.error .invalidShowID, 0)) := by
  constructor
  · constructor
    · intro h
      unfold validateShowID at h
      by_cases h1 : id = [] ∨ id.length > maxShowIDLength
      · rw [if_pos h1] at h; cases h
      · rw [if_neg h1] at h
        by_cases h2 : id.all validChar = true
        · push_neg at h1
          refine ⟨?_, ?_, ?_⟩
          · have hne := h1.1
            cases id with
            | nil => exact absurd rfl hne
            | cons a t => simp
          · have hle := h1.2
            unfold maxShowIDLength at hle
            omega
          · intro c hc
            have hv := (List.all_eq_true.mp h2) c hc
            unfold validChar at hv
            simp only [Bool.or_eq_true, Bool.and_eq_true, decide_eq_true_iff,
              beq_iff_eq] at hv
            tauto
        · rw [if_neg h2] at h; cases h
    · rintro ⟨hl, hu, hc⟩
      unfold validateShowID
      have hne : id ≠ [] := by
        intro h; rw [h] at hl; simp at hl
      have h1 : ¬ (id = [] ∨ id.length > maxShowIDLength) := by
        push_neg
        exact ⟨hne, by unfold maxShowIDLength; omega⟩
      rw [if_neg h1, if_pos ?hall]
      case hall =>
        apply List.all_eq_true.mpr
        intro c hcm
        have := hc c hcm
        unfold validChar
        simp only [Bool.or_eq_true, Bool.and_eq_true, decide_eq_true_iff,
          beq_iff_eq]
        tauto
  · intro h
    unfold getShowArchiveID
    rw [validateShowID_error_shape id h]

/-- Witness for C7 at the concrete rejected key `"/"`. -/
theorem validateShowID_spec_exact_witness :
    validateShowID ['/'] ≠ .ok () ∧
    getShowArchiveID ['/'] (.got 200 none) = (.error .invalidShowID, 0) :=
  ⟨by decide, (validateShowID_spec_exact ['/'] (.got 200 none)).2 (by decide)⟩

/-! ## C3: the archive-id traversal -/

theorem option_getD_or {α : Type} (a b : Option α) (c : α) :
    (a.or b).getD c = a.getD (b.getD c) := by
  cases a <;> rfl

/-- What the traversal computes: the accumulator is overwritten by every
match in visit order, so the result is the LAST collected id (or the initial
accumulator when there is none). -/
theorem fVisit_eq_getLast (n : HNode) :
    ∀ acc : Str, fVisit acc n = ((collectIds n).getLast?).getD acc := by
  induction n with
  | nilN => intro acc; rfl
  | element tag attrs child sib ihc ihs =>
      intro acc
      simp only [fVisit, collectIds]
      rw [ihs, List.getLast?_append, option_getD_or]
      by_cases ht : tag = wmseTag
      · rw [if_pos ht, if_pos ht]
        cases hf : findShowId attrs with
        | some v => rfl
        | none => rw [ihc]
      · rw [if_neg ht, if_neg ht, ihc]
  | other child sib ihc ihs =>
      intro acc
      simp only [fVisit, collectIds]
      rw [ihs, List.getLast?_append, option_getD_or, ihc]

/-- A show key used by the concrete scenarios: `"ded"`. -/
def exShowKey : Str := ['d', 'e', 'd']

/-- `"A"` / `"B"`: the `show-id` values of two duplicate elements. -/
def strA : Str := ['A']

def strB : Str := ['B']

/-- A document whose root has two sibling `wmse-archive` elements, the first
carrying `show-id="A"`, the second `show-id="B"`. -/
def dupDoc : HNode :=
  .other (.element wmseTag [(showIdKey, strA)] .nilN
    (.element wmseTag [(showIdKey, strB)] .nilN .nilN)) .nilN

/-- C3 counterexample: on a document with two sibling matches (`"A"` first,
`"B"` second in depth-first order), the first match in document order is
`"A"`, but the resolver returns `"B"`: the traversal's `return` only skips
the matched element's own subtree, the parent's sibling loop keeps running
and later matches overwrite `archiveID`. -/
theorem resolver_first_match_counterexample :
    specFirstMatch dupDoc = some strA ∧
    getShowArchiveID exShowKey (.got 200 (some dupDoc)) = (.ok strB, 1) ∧
    strB ≠ strA := by decide

/-- C3 amended: for every parsed document, the resolver returns the
attribute value of the LAST `wmse-archive` element carrying a `show-id`
attribute in depth-first visit order (a match suppresses descent into its
own subtree but the search continues through later siblings and their
subtrees, so earlier duplicates are overwritten); when there is no match
(or the last match's value is empty) it fails with `archiveIDNotFound`. -/
theorem resolver_returns_last_match (showID : Str) (doc : HNode)
    (hv : validateShowID showID = .ok ()) :
    getShowArchiveID showID (.got 200 (some doc)) =
      (if ((collectIds doc).getLast?).getD [] = []
       then (.error .archiveIDNotFound, 1)
       else (.ok (((collectIds doc).getLast?).getD []), 1)) := by
  unfold getShowArchiveID
  rw [hv]
  simp [fVisit_eq_getLast]

/-- Witness for C3's amended theorem on the duplicate document. -/
theorem resolver_returns_last_match_witness :
    validateShowID exShowKey = .ok () ∧
    getShowArchiveID exShowKey (.got 200 (some dupDoc)) = (.ok strB, 1) := by
  refine ⟨by decide, ?_⟩
  rw [resolver_returns_last_match exShowKey dupDoc (by decide)]
  decide

/-! ## Concrete transfer scenarios shared by C1/C2/C4/C6 -/

/-- `"2024"`, a playlist date. -/
def exDate : Str := ['2', '0', '2', '4']

/-- `"http"`, standing in for a non-empty archive URL. -/
def exURL : Str := ['h', 't', 't', 'p']

/-- `"out"`, the output directory. -/
def exDir : Str := ['o', 'u', 't']

/-- A catalog entry with a non-empty URL. -/
def exArchive : Archive := ⟨exShowKey, exURL, none, exDate⟩

/-- The destination path `downloadShow` derives for `exArchive` in `exDir`
(`"out/2024_ded.mp3"`). -/
def exOutputPath : Str := showOutputPath exArchive exDir

/-- A filesystem already holding the destination file (contents `[7]`). -/
def exExistingFS : FS := [(exOutputPath, [7])]

/-! ## C1: all retries fail -/

/-- C1 (code bug made concrete): entry with non-empty URL, destination
absent, all three attempts fail with non-200 status.  `downloadShow` returns
the last attempt's error and no file exists at the final destination — but
the temporary file at `finalPath ++ ".tmp"` is NOT removed: the deferred
cleanup (lines 232-237) tests the `err` bound at `os.Create` (line 228),
and every error inside the retry loop binds a new shadowed `err`
(lines 252/263/290), so the outer `err` is still `nil` and
`os.Remove(tempFile)` never runs. -/
theorem downloadShow_all_fail_leaves_temp :
    (downloadShow exArchive exDir 5 .badStatus .badStatus .badStatus []).result
        = .error .dlBadStatus ∧
    fsGet (downloadShow exArchive exDir 5 .badStatus .badStatus .badStatus []).fs
        exOutputPath = none ∧
    fsGet (downloadShow exArchive exDir 5 .badStatus .badStatus .badStatus []).fs
        (exOutputPath ++ tmpExt) = some [] := by decide

/-! ## C2: fail twice, succeed on the third attempt -/

/-- C2 (code bug made concrete): attempt 1 suffers a mid-stream I/O error
after writing byte `1`, attempt 2 gets a non-200 status, attempt 3 succeeds
retrieving bytes `[2, 3]`.  The backoff sleeps are indeed 4s then 6s and the
temp file is promoted — but the promoted file holds `[1, 2, 3]`, NOT the
successful attempt's bytes `[2, 3]`: the temp file handle is opened once
before the retry loop and never truncated or rewound, so each attempt's
`io.Copy` appends after the failed attempts' partial bytes. -/
theorem downloadShow_retry_appends_partial_bytes :
    (downloadShow exArchive exDir 5 (.body [1] true) .badStatus
        (.body [2, 3] false) []).result = .ok () ∧
    (downloadShow exArchive exDir 5 (.body [1] true) .badStatus
        (.body [2, 3] false) []).sleeps
        = [.backoff 4, .backoff 6, .inter 5] ∧
    fsGet (downloadShow exArchive exDir 5 (.body [1] true) .badStatus
        (.body [2, 3] false) []).fs exOutputPath = some [1, 2, 3] ∧
    fsGet (downloadShow exArchive exDir 5 (.body [1] true) .badStatus
        (.body [2, 3] false) []).fs exOutputPath ≠ some [2, 3] ∧
    fsGet (downloadShow exArchive exDir 5 (.body [1] true) .badStatus
        (.body [2, 3] false) []).fs (exOutputPath ++ tmpExt) = none := by decide

/-! ## C4: skip when the destination already exists -/

/-- C4 counterexample: an entry whose destination file already exists but
whose `archiveUrl` is EMPTY does not return success — the empty-URL check
(line 202) runs before the existing-file check (line 212), so the transfer
fails with `noURL` even though the destination exists. -/
theorem skip_claim_counterexample :
    fsGet exExistingFS exOutputPath = some [7] ∧
    (downloadShow ⟨exShowKey, [], none, exDate⟩ exDir 5 .badStatus .badStatus
        .badStatus exExistingFS).result = .error .noURL ∧
    (downloadShow ⟨exShowKey, [], none, exDate⟩ exDir 5 .badStatus .badStatus
        .badStatus exExistingFS).result ≠ .ok () := by decide

/-- C4 amended: for every archive entry with a NON-EMPTY `archiveUrl` whose
destination file already exists at the expected final path, re-running the
transfer performs zero network requests, sleeps nothing, promotes nothing,
returns success, and leaves the filesystem unchanged. -/
theorem downloadShow_skip_existing (archive : Archive) (outputDir : Str)
    (delay : Nat) (o1 o2 o3 : AttemptOutcome) (fs : FS)
    (hurl : ¬ archive.ArchiveURL = [])
    (hex : (fsGet fs (showOutputPath archive outputDir)).isSome = true) :
    downloadShow archive outputDir delay o1 o2 o3 fs = ⟨.ok (), fs, [], 0, false⟩ := by
  obtain ⟨v, hv⟩ := Option.isSome_iff_exists.mp hex
  unfold downloadShow
  simp [hurl, hv]

/-- Witness for C4's amended theorem: existing destination, non-empty URL. -/
theorem downloadShow_skip_existing_witness :
    ¬ (exArchive.ArchiveURL = []) ∧
    downloadShow exArchive exDir 5 .badStatus .badStatus .badStatus exExistingFS
      = ⟨.ok (), exExistingFS, [], 0, false⟩ :=
  ⟨by decide,
    downloadShow_skip_existing exArchive exDir 5 .badStatus .badStatus .badStatus
      exExistingFS (by decide) (by decide)⟩

/-! ## C6: the inter-download delay -/

/-- C6 counterexample: on the skip path (destination already exists) the
transfer returns success having slept NOTHING — the claim's "sleeps the
configured inter-download delay … regardless of outcome (success, skip, or
any failure)" fails: `time.Sleep(delay)` (line 328) is only reached on the
full download-and-promotion path. -/
theorem pacing_claim_counterexample :
    (downloadShow exArchive exDir 5 .badStatus .badStatus .badStatus
        exExistingFS).result = .ok () ∧
    (downloadShow exArchive exDir 5 .badStatus .badStatus .badStatus
        exExistingFS).sleeps = [] ∧
    SleepEv.inter 5 ∉ (downloadShow exArchive exDir 5 .badStatus .badStatus
        .badStatus exExistingFS).sleeps := by decide

/-- The retry loop emits only backoff sleeps: it never adds an
inter-download sleep event. -/
theorem retryGo_sleeps_backoff_only (l : List (Nat × AttemptOutcome)) :
    ∀ (tmp : Bytes) (le : Option DlErr) (sleeps : List SleepEv) (reqs : Nat)
      (d : Nat), SleepEv.inter d ∉ sleeps →
      SleepEv.inter d ∉ (retryGo l tmp le sleeps reqs).sleeps := by
  induction l with
  | nil => intro tmp le sleeps reqs d h; exact h
  | cons p rest ih =>
      intro tmp le sleeps reqs d h
      obtain ⟨k, o⟩ := p
      have h1 : SleepEv.inter d ∉
          (if 1 < k then sleeps ++ [SleepEv.backoff (k * 2)] else sleeps) := by
        by_cases hk : 1 < k
        · rw [if_pos hk]
          intro hmem
          rcases List.mem_append.mp hmem with hm | hm
          · exact h hm
          · simp at hm
        · rw [if_neg hk]; exact h
      simp only [retryGo]
      cases har : (attemptStep o tmp).err with
      | none => simpa [har] using h1
      | some e =>
          simp only [har]
          exact ih _ _ _ _ d h1

/-- C6 amended: for every archive entry and every outcome, `downloadShow`
sleeps the configured inter-download delay exactly when it promoted a
downloaded file; on the skip, empty-URL and all-retries-failed paths it
returns without that sleep (its only other sleeps are the retry backoffs). -/
theorem downloadShow_delay_iff_promoted (archive : Archive) (outputDir : Str)
    (delay : Nat) (o1 o2 o3 : AttemptOutcome) (fs : FS) :
    SleepEv.inter delay ∈ (downloadShow archive outputDir delay o1 o2 o3 fs).sleeps
      ↔ (downloadShow archive outputDir delay o1 o2 o3 fs).promoted = true := by
  unfold downloadShow
  by_cases h1 : archive.ArchiveURL = []
  · simp [h1]
  · rw [if_neg h1]
    cases hfs : fsGet fs (showOutputPath archive outputDir) with
    | some v => simp [hfs]
    | none =>
        cases hrr : (retryGo [(1, o1), (2, o2), (3, o3)] [] none [] 0).lastErr with
        | some e =>
            simp [hfs, hrr]
            exact retryGo_sleeps_backoff_only _ _ _ _ _ delay (by simp)
        | none => simp [hfs, hrr]

/-! ## C5: the driver's exit policy -/

/-- The download loop produces one result per catalog entry, whatever the
individual outcomes: a failed entry never stops the loop. -/
theorem runLoop_length (outputDir : Str) (delay : Nat)
    (att : Nat → AttemptOutcome × AttemptOutcome × AttemptOutcome) :
    ∀ (archives : List Archive) (i : Nat) (fs : FS),
      (runLoop outputDir delay att archives i fs).1.length = archives.length := by
  intro archives
  induction archives with
  | nil => intro i fs; rfl
  | cons a rest ih =>
      intro i fs
      simp only [runLoop, List.length_cons]
      rw [ih]

/-- C5: per-entry transfer failures are not fatal — the loop visits every
catalog entry — and the process exit status is 0 if and only if resolution
succeeded, the catalog fetch succeeded, and the catalog was non-empty; in
particular the exit status does not depend on the per-entry attempt
outcomes `att` at all, so it is 0 even if every transfer failed, and an
empty catalog yields a non-zero exit. -/
theorem runMain_exit_policy (showID outputDir : Str) (delay : Nat)
    (pf : PageFetch) (af : Str → ApiFetch)
    (att : Nat → AttemptOutcome × AttemptOutcome × AttemptOutcome) (fs : FS) :
    ((runMain showID outputDir delay pf af att fs).1 = 0 ↔
      ∃ aid archives, (getShowArchiveID showID pf).1 = .ok aid ∧
        fetchArchives aid (af aid) = .ok archives ∧ archives ≠ []) ∧
    (∀ aid archives, (getShowArchiveID showID pf).1 = .ok aid →
      fetchArchives aid (af aid) = .ok archives →
      (runLoop outputDir delay att archives 0 fs).1.length = archives.length) := by
  constructor
  · unfold runMain
    cases hres : (getShowArchiveID showID pf).1 with
    | error e => simp [hres]
    | ok aid =>
        cases hfetch : fetchArchives aid (af aid) with
        | error e => simp [hfetch]
        | ok archives =>
            by_cases hlen : archives.length = 0
            · simp [hfetch, hlen, List.length_eq_zero.mp hlen]
            · simp [hfetch, hlen]
              exact fun h => hlen (by rw [h]; rfl)
  · intro aid archives h1 h2
    exact runLoop_length outputDir delay att archives 0 fs

/-- Witness for C5: resolution and fetch succeed with a one-entry catalog,
every download attempt fails with a non-200 status — and the exit code is
still 0, with the loop having produced one (failed) per-entry result. -/
theorem runMain_exit_policy_witness :
    (runMain exShowKey exDir 5 (.got 200 (some dupDoc))
        (fun _ => .got 200 100 (some [exArchive]))
        (fun _ => (.badStatus, .badStatus, .badStatus)) []).1 = 0 ∧
    (runLoop exDir 5 (fun _ => (.badStatus, .badStatus, .badStatus))
        [exArchive] 0 []).1.length = 1 := by
  constructor
  · exact (runMain_exit_policy exShowKey exDir 5 (.got 200 (some dupDoc))
      (fun _ => .got 200 100 (some [exArchive]))
      (fun _ => (.badStatus, .badStatus, .badStatus)) []).1.mpr
      ⟨strB, [exArchive], by decide, by decide, by decide⟩
  · exact (runMain_exit_policy exShowKey exDir 5 (.got 200 (some dupDoc))
      (fun _ => .got 200 100 (some [exArchive]))
      (fun _ => (.badStatus, .badStatus, .badStatus)) []).2
      strB [exArchive] (by decide) (by decide)

/-! ## C8: catalog ceilings are not enforced -/

/-- A decoded catalog of 1001 entries — one more than `maxArchiveLinks`. -/
def bigArchiveList : List Archive := List.replicate 1001 exArchive

/-- C8 (code bug made concrete): a 200-status listing response of 11 MiB
decoding to 1001 entries — exceeding both `maxResponseSize` (10 MiB) and
`maxArchiveLinks` (1000) — is NOT rejected: `fetchArchives` returns the
full decoded sequence.  The ceilings and their sentinels
(`ErrResponseTooLarge`, `ErrTooManyLinks`, lines 30/32/40/43) are declared
but never consulted by `fetchArchives` (lines 159-196). -/
theorem fetchArchives_no_ceiling :
    fetchArchives strB (.got 200 (11 * 1024 * 1024) (some bigArchiveList))
      = .ok bigArchiveList ∧
    bigArchiveList.length > maxArchiveLinks ∧
    11 * 1024 * 1024 > maxResponseSize := by
  refine ⟨rfl, ?_, by decide⟩
  unfold bigArchiveList maxArchiveLinks
  rw [List.length_replicate]
  omega

end WMSE
